import Mathlib

/-!
Shallow embedding of the proxygen connection-level flow-control core:
`FlowControlFilter` (src/proxygen/lib/http/codec/FlowControlFilter.cpp)
together with the credit-window abstraction it relies on.

The `Window` type and the constant `spdy::kInitialWindow` are declared in
headers that are not part of this tree; they are modelled from the spec
(marked `Modelled from the spec:` on each such definition).  Everything in
the `FlowControlFilter` namespace is translated directly from
FlowControlFilter.cpp.

Machine integers are modelled as `Nat` (for `uint32_t` values, which in the
source never wrap on the paths embedded here except where noted) and `Int`
with explicit twos-complement reduction `wrap32` where `int32_t`
arithmetic can overflow.  `CHECK(...)` failures (fatal aborts) are modelled
by an `Option` result being `none`.  Calls into the wrapped codec and the
upward callbacks are modelled as an emitted list of `Event`s.
-/

namespace Proxygen

/-- Twos-complement reduction of an integer to the `int32_t` range,
modelling C++ `int32_t` overflow / the `uint32_t → int32_t` conversion. -/
def wrap32 (i : Int) : Int :=
  if i % (2 ^ 32 : Int) < 2 ^ 31 then i % (2 ^ 32 : Int)
  else i % (2 ^ 32 : Int) - 2 ^ 32

/-- Conversion of a `uint32_t` value (a `Nat` below `2^32`) to `int32_t`. -/
def toInt32 (n : Nat) : Int := wrap32 (n : Int)

/-- `uint32_t` subtraction `a - b` (modular). -/
def uint32Sub (a b : Nat) : Nat := (a % 2 ^ 32 + 2 ^ 32 - b % 2 ^ 32) % 2 ^ 32

/-- Largest value representable in `int32_t`. -/
def int32Max : Int := 2 ^ 31 - 1

/-- Modelled from the spec: the protocol default initial window size
(`spdy::kInitialWindow`, declared in SPDYConstants.h which is not in this
tree); a fixed protocol-defined value of 64 KiB magnitude. -/
def kInitialWindow : Nat := 65536

/-- Modelled from the spec: the flow-control window (the proxygen `Window`
class, declared outside this tree).  `capacity` is an unsigned integer
ceiling; `available` is a signed integer of usable credit. -/
structure Window where
  capacity : Nat
  available : Int
deriving DecidableEq, Repr

namespace Window

/-- Modelled from the spec: `reserve(n)` consumes `n` units of credit;
succeeds and decrements `available` by `n` iff `n ≤ available`, otherwise
fails leaving the state unchanged. -/
def reserve (w : Window) (n : Nat) : Option Window :=
  if (n : Int) ≤ w.available then some { w with available := w.available - n }
  else none

/-- Modelled from the spec: `free(n)` returns `n` units of credit
(`available += n`); fails iff the addition would overflow the signed
representable range; there is no ceiling check against `capacity`. -/
def free (w : Window) (n : Nat) : Option Window :=
  if int32Max < w.available + n then none
  else some { w with available := w.available + n }

/-- Modelled from the spec: `setCapacity(c)` sets `capacity = c` and adds
the delta `c - capacity_old` to `available`; fails (no-op) if `c` is
smaller than the current capacity. -/
def setCapacity (w : Window) (c : Nat) : Option Window :=
  if c < w.capacity then none
  else some { capacity := c
              available := w.available + ((c : Int) - (w.capacity : Int)) }

/-- Modelled from the spec: `getNonNegativeSize()` returns
`max(available, 0)`. -/
def getNonNegativeSize (w : Window) : Nat := w.available.toNat

/-- Modelled from the spec: accessor for the capacity ceiling. -/
def getCapacity (w : Window) : Nat := w.capacity

/-- A reserve or free step, for reasoning about call sequences. -/
inductive Op where
  | reserve (n : Nat)
  | free (n : Nat)
deriving DecidableEq, Repr

/-- Run a sequence of reserve/free operations; `none` if any step fails. -/
def runOps (w : Window) : List Op → Option Window
  | [] => some w
  | Op.reserve n :: rest =>
      match w.reserve n with
      | none => none
      | some w' => w'.runOps rest
  | Op.free n :: rest =>
      match w.free n with
      | none => none
      | some w' => w'.runOps rest

/-- Total credit reserved by an operation (0 for a free). -/
def Op.reservedOf : Op → Nat
  | Op.reserve n => n
  | Op.free _ => 0

/-- Total credit freed by an operation (0 for a reserve). -/
def Op.freedOf : Op → Nat
  | Op.free n => n
  | Op.reserve _ => 0

end Window

/-- Direction tag of an `HTTPException`. -/
inductive Direction where
  | ingress
  | egress
  | ingressAndEgress
deriving DecidableEq, Repr

/-- Codec status code carried by an `HTTPException` (only the flow-control
code is relevant to this filter). -/
inductive ErrorCode where
  | flowControlError
deriving DecidableEq, Repr

/-- The slice of `HTTPException` the filter constructs: a direction and a
codec status code. -/
structure HTTPException where
  direction : Direction
  codecStatusCode : ErrorCode
deriving DecidableEq, Repr

/-- The anonymous-namespace `getException()` helper in
FlowControlFilter.cpp: a bidirectional flow-control error. -/
def getException : HTTPException :=
  { direction := Direction.ingressAndEgress
    codecStatusCode := ErrorCode.flowControlError }

/-- Observable effects of the filter: frames generated through the wrapped
codec (`gen…`), events delivered upward to the data callback (`…Cb`,
`onError`) and the notification callback (`onConnectionSendWindowOpen`).
Body buffers are modelled by their chain data length. -/
inductive Event where
  | genWindowUpdate (stream : Nat) (delta : Nat)
  | genBody (stream : Nat) (len : Nat) (eom : Bool)
  | onError (stream : Nat) (ex : HTTPException) (isIngress : Bool)
  | onBodyCb (stream : Nat) (len : Nat)
  | onWindowUpdateCb (stream : Nat) (amount : Nat)
  | onConnectionSendWindowOpen
deriving DecidableEq, Repr

/-- The mutable state of `FlowControlFilter`: both windows, the error and
send-blocked flags, and the `toAck_` accumulator (`int32_t` in the
source). -/
structure FlowControlFilter where
  recvWindow : Window
  sendWindow : Window
  error : Bool
  sendsBlocked : Bool
  toAck : Int
deriving DecidableEq, Repr

namespace FlowControlFilter

/-- The member-initializer state of the constructor: both windows at the
protocol default, flags clear, empty accumulator. -/
def initState : FlowControlFilter :=
  { recvWindow := { capacity := kInitialWindow, available := (kInitialWindow : Int) }
    sendWindow := { capacity := kInitialWindow, available := (kInitialWindow : Int) }
    error := false
    sendsBlocked := false
    toAck := 0 }

/-- `FlowControlFilter::FlowControlFilter(callback, writeBuf, codec,
recvCapacity)`: below-default capacities are ignored; above-default ones
grow the receive window and emit one connection-level window update for
the delta.  `none` models the `CHECK` on `setCapacity` failing. -/
def construct (recvCapacity : Nat) : Option (FlowControlFilter × List Event) :=
  if recvCapacity < kInitialWindow then some (initState, [])
  else if kInitialWindow < recvCapacity then
    let delta := recvCapacity - kInitialWindow
    match initState.recvWindow.setCapacity recvCapacity with
    | none => none
    | some w => some ({ initState with recvWindow := w },
                      [Event.genWindowUpdate 0 delta])
  else some (initState, [])

/-- `FlowControlFilter::setReceiveWindowSize(writeBuf, capacity)`. -/
def setReceiveWindowSize (s : FlowControlFilter) (capacity : Nat) :
    FlowControlFilter × List Event :=
  if capacity < kInitialWindow then (s, [])
  else
    let delta : Int := toInt32 (uint32Sub capacity s.recvWindow.getCapacity)
    if delta < 0 then (s, [])
    else
      match s.recvWindow.setCapacity capacity with
      | none => (s, [])
      | some w =>
        let a := wrap32 (s.toAck + delta)
        if 0 < a then
          ({ s with recvWindow := w, toAck := 0 },
           [Event.genWindowUpdate 0 delta.toNat])
        else
          ({ s with recvWindow := w, toAck := a }, [])

/-- `FlowControlFilter::ingressBytesProcessed(writeBuf, delta)`: returns
the updated state, emitted events, and the `bool` result (whether a flush
happened); `none` models the `CHECK(recvWindow_.free(toAck_))` aborting. -/
def ingressBytesProcessed (s : FlowControlFilter) (delta : Nat) :
    Option (FlowControlFilter × List Event × Bool) :=
  let a := wrap32 (s.toAck + delta)
  if 0 < a ∧ s.recvWindow.getCapacity / 2 < a.toNat then
    match s.recvWindow.free a.toNat with
    | none => none
    | some w =>
        some ({ s with recvWindow := w, toAck := 0 },
              [Event.genWindowUpdate 0 a.toNat], true)
  else some ({ s with toAck := a }, [], false)

/-- `FlowControlFilter::getAvailableSend()`. -/
def getAvailableSend (s : FlowControlFilter) : Nat :=
  s.sendWindow.getNonNegativeSize

/-- `FlowControlFilter::isReusable()`; `codecReusable` stands for the
wrapped codec answer to `call_->isReusable()`. -/
def isReusable (s : FlowControlFilter) (codecReusable : Bool) : Bool :=
  if s.error then false else codecReusable

/-- `FlowControlFilter::onBody(stream, chain)`; the chain is modelled by
its `computeChainDataLength()`. -/
def onBody (s : FlowControlFilter) (stream : Nat) (len : Nat) :
    FlowControlFilter × List Event :=
  match s.recvWindow.reserve len with
  | none => ({ s with error := true }, [Event.onError 0 getException false])
  | some w => ({ s with recvWindow := w }, [Event.onBodyCb stream len])

/-- `FlowControlFilter::onWindowUpdate(stream, amount)`.  Note that the
`sendsBlocked_` check in the source is not in an `else`: it runs after a
failed `free` as well. -/
def onWindowUpdate (s : FlowControlFilter) (stream : Nat) (amount : Nat) :
    FlowControlFilter × List Event :=
  if stream = 0 then
    let step : FlowControlFilter × List Event :=
      match s.sendWindow.free amount with
      | none => ({ s with error := true },
                 [Event.onError stream getException false])
      | some w => ({ s with sendWindow := w }, [])
    if step.1.sendsBlocked = true ∧ step.1.sendWindow.getNonNegativeSize ≠ 0 then
      ({ step.1 with sendsBlocked := false },
       step.2 ++ [Event.onConnectionSendWindowOpen])
    else step
  else (s, [Event.onWindowUpdateCb stream amount])

/-- `FlowControlFilter::generateBody(writeBuf, stream, chain, eom)`;
`none` models the fatal `CHECK(success)` on send-window underflow.  The
delegated `call_->generateBody` is the emitted `genBody` event. -/
def generateBody (s : FlowControlFilter) (stream : Nat) (len : Nat)
    (eom : Bool) : Option (FlowControlFilter × List Event) :=
  match s.sendWindow.reserve len with
  | none => none
  | some w =>
    let s1 := { s with sendWindow := w }
    let s2 := if w.getNonNegativeSize = 0 then { s1 with sendsBlocked := true }
              else s1
    some (s2, [Event.genBody stream len eom])

/-- `FlowControlFilter::generateWindowUpdate(writeBuf, stream, delta)`;
`none` models the fatal `CHECK(stream)` on a connection-level call. -/
def generateWindowUpdate (s : FlowControlFilter) (stream : Nat)
    (delta : Nat) : Option (FlowControlFilter × List Event) :=
  if stream = 0 then none
  else some (s, [Event.genWindowUpdate stream delta])

/-- Fold `ingressBytesProcessed` over a list of deltas, accumulating the
emitted events; `none` if any call aborts. -/
def runIngress (s : FlowControlFilter) : List Nat →
    Option (FlowControlFilter × List Event)
  | [] => some (s, [])
  | d :: ds =>
    match s.ingressBytesProcessed d with
    | none => none
    | some (s', evs, _) =>
      match s'.runIngress ds with
      | none => none
      | some (s'', evs') => some (s'', evs ++ evs')

end FlowControlFilter

end Proxygen

namespace Proxygen

/-- Invariant of the send-window side maintained by every filter
operation: send credit is never negative, and while `sendsBlocked` is set
the send window has exactly zero available credit (it was set at the
moment the window drained and is cleared as soon as credit reappears). -/
def FlowControlFilter.SendInv (s : FlowControlFilter) : Prop :=
  0 ≤ s.sendWindow.available ∧
  (s.sendsBlocked = true → s.sendWindow.available = 0)

/-- A filter state whose receive window is fully used up. -/
def FlowControlFilter.drainedRecvState : FlowControlFilter :=
  { FlowControlFilter.initState with
      recvWindow := { capacity := kInitialWindow, available := 0 } }

/-- A filter state whose send window is fully used up (not yet marked
blocked). -/
def FlowControlFilter.drainedSendState : FlowControlFilter :=
  { FlowControlFilter.initState with
      sendWindow := { capacity := kInitialWindow, available := 0 } }

/-- A filter state whose send window is fully used up and marked
blocked, as `generateBody` leaves it after draining the window. -/
def FlowControlFilter.blockedState : FlowControlFilter :=
  { FlowControlFilter.initState with
      sendWindow := { capacity := kInitialWindow, available := 0 }
      sendsBlocked := true }

/-- A filter state with 500 consumed-but-unacknowledged ingress bytes
pending. -/
def FlowControlFilter.pendingAckState : FlowControlFilter :=
  { FlowControlFilter.initState with
      recvWindow := { capacity := kInitialWindow, available := kInitialWindow - 500 }
      toAck := 500 }

/-! ## General lemmas -/

/-- `wrap32` is the identity on the `int32_t` range of non-negative
values. -/
theorem wrap32_eq_self (i : Int) (h0 : 0 ≤ i) (h1 : i < 2 ^ 31) :
    wrap32 i = i := by
  have h2 : i % (2 ^ 32 : Int) = i := Int.emod_eq_of_lt h0 (by omega)
  simp only [wrap32, h2, if_pos h1]

/-- Evaluation of a connection-level `onWindowUpdate` whose `free`
fails: the error branch runs, then the blocked check still runs on the
unchanged send window. -/
theorem onWindowUpdate_conn_free_none (s : FlowControlFilter) (amount : Nat)
    (hf : s.sendWindow.free amount = none) :
    s.onWindowUpdate 0 amount
      = (if s.sendsBlocked = true ∧ s.sendWindow.getNonNegativeSize ≠ 0 then
           ({ s with error := true, sendsBlocked := false },
            [Event.onError 0 getException false,
             Event.onConnectionSendWindowOpen])
         else ({ s with error := true },
               [Event.onError 0 getException false])) := by
  simp [FlowControlFilter.onWindowUpdate, hf]

/-- Evaluation of a connection-level `onWindowUpdate` whose `free`
succeeds with window `w`. -/
theorem onWindowUpdate_conn_free_some (s : FlowControlFilter) (amount : Nat)
    (w : Window) (hf : s.sendWindow.free amount = some w) :
    s.onWindowUpdate 0 amount
      = (if s.sendsBlocked = true ∧ w.getNonNegativeSize ≠ 0 then
           ({ s with sendWindow := w, sendsBlocked := false },
            [Event.onConnectionSendWindowOpen])
         else ({ s with sendWindow := w }, [])) := by
  simp [FlowControlFilter.onWindowUpdate, hf]

/-- Credit accounting for a successful sequence of reserve/free calls:
capacity is untouched and the final `available` is the initial one plus
total freed minus total reserved. -/
theorem Window.runOps_spec (ops : List Window.Op) (w w' : Window)
    (h : w.runOps ops = some w') :
    w'.capacity = w.capacity ∧
    w'.available = w.available + ((ops.map Window.Op.freedOf).sum : Int)
                    - ((ops.map Window.Op.reservedOf).sum : Int) := by
  induction ops generalizing w with
  | nil =>
    simp only [Window.runOps, Option.some.injEq] at h
    subst h
    simp
  | cons op rest ih =>
    cases op with
    | reserve n =>
      simp only [Window.runOps] at h
      cases hr : w.reserve n with
      | none => rw [hr] at h; exact absurd h (by simp)
      | some w1 =>
        rw [hr] at h
        have hw1 : w1 = { w with available := w.available - (n : Int) } := by
          simp only [Window.reserve] at hr
          split at hr
          · exact (Option.some.inj hr).symm
          · exact absurd hr (by simp)
        obtain ⟨hc, ha⟩ := ih w1 h
        subst hw1
        refine ⟨hc, ?_⟩
        simp only [List.map_cons, List.sum_cons, Window.Op.freedOf,
          Window.Op.reservedOf] at ha ⊢
        push_cast at ha ⊢
        omega
    | free n =>
      simp only [Window.runOps] at h
      cases hr : w.free n with
      | none => rw [hr] at h; exact absurd h (by simp)
      | some w1 =>
        rw [hr] at h
        have hw1 : w1 = { w with available := w.available + (n : Int) } := by
          simp only [Window.free] at hr
          split at hr
          · exact absurd hr (by simp)
          · exact (Option.some.inj hr).symm
        obtain ⟨hc, ha⟩ := ih w1 h
        subst hw1
        refine ⟨hc, ?_⟩
        simp only [List.map_cons, List.sum_cons, Window.Op.freedOf,
          Window.Op.reservedOf] at ha ⊢
        push_cast at ha ⊢
        omega

/-! ## C2 -/

/-- C2 counterexample: the claim "for every sequence of successful
reserve/free calls, `available` never exceeds `capacity`" is false as
stated: a single successful `free(1)` on a full window of capacity 10
leaves `available = 11 > 10`, because `free` has no ceiling check. -/
theorem C2_free_exceeds_capacity_cex :
    Window.runOps { capacity := 10, available := 10 } [Window.Op.free 1]
      = some { capacity := 10, available := 11 } ∧
    ¬ ((Window.mk 10 11).available ≤ ((Window.mk 10 11).capacity : Int)) := by
  decide

/-- C2 (amended): for every sequence of successful reserve/free calls in
which the total credit freed does not exceed the total credit reserved,
starting from a window with `available ≤ capacity`, the final window still
satisfies `available ≤ capacity`. -/
theorem C2_available_le_capacity (ops : List Window.Op) (w w' : Window)
    (hinit : w.available ≤ (w.capacity : Int))
    (hbal : (ops.map Window.Op.freedOf).sum ≤ (ops.map Window.Op.reservedOf).sum)
    (h : w.runOps ops = some w') :
    w'.available ≤ (w'.capacity : Int) := by
  obtain ⟨hc, ha⟩ := Window.runOps_spec ops w w' h
  rw [hc, ha]
  omega

/-- Witness for the amended C2 at a concrete input. -/
theorem C2_available_le_capacity_witness :
    (Window.mk 10 10).available ≤ ((Window.mk 10 10).capacity : Int) ∧
    (([Window.Op.reserve 3, Window.Op.free 2].map Window.Op.freedOf).sum ≤
      ([Window.Op.reserve 3, Window.Op.free 2].map Window.Op.reservedOf).sum) ∧
    Window.runOps (Window.mk 10 10) [Window.Op.reserve 3, Window.Op.free 2]
      = some (Window.mk 10 9) ∧
    (Window.mk 10 9).available ≤ ((Window.mk 10 9).capacity : Int) :=
  ⟨by decide, by decide, by decide,
   C2_available_le_capacity [Window.Op.reserve 3, Window.Op.free 2]
     (Window.mk 10 10) (Window.mk 10 9) (by decide) (by decide) (by decide)⟩

/-! ## C1 -/

/-- C1: on each peer protocol violation — an `onBody` whose length cannot
be reserved against the receive window, or a connection-level
`onWindowUpdate` whose grant cannot be freed into the send window — the
filter emits exactly one bidirectional flow-control error on the error
channel, sets the errored state, does not invoke the data-delivery
callback for the offending event, and `isReusable` reports false
afterwards whatever the wrapped codec answers. -/
theorem C1_peer_violation (s : FlowControlFilter)
    (stream len amount : Nat) (codecReusable : Bool)
    (hb : s.recvWindow.reserve len = none)
    (hw : s.sendWindow.free amount = none) :
    s.onBody stream len
      = ({ s with error := true }, [Event.onError 0 getException false]) ∧
    (s.onBody stream len).1.isReusable codecReusable = false ∧
    (s.onWindowUpdate 0 amount).1.error = true ∧
    ((s.onWindowUpdate 0 amount).2 = [Event.onError 0 getException false] ∨
     (s.onWindowUpdate 0 amount).2
       = [Event.onError 0 getException false,
          Event.onConnectionSendWindowOpen]) ∧
    (∀ st l, Event.onBodyCb st l ∉ (s.onWindowUpdate 0 amount).2) ∧
    (∀ st a, Event.onWindowUpdateCb st a ∉ (s.onWindowUpdate 0 amount).2) ∧
    (s.onWindowUpdate 0 amount).1.isReusable codecReusable = false ∧
    getException.direction = Direction.ingressAndEgress ∧
    getException.codecStatusCode = ErrorCode.flowControlError := by
  have hob : s.onBody stream len
      = ({ s with error := true }, [Event.onError 0 getException false]) := by
    simp [FlowControlFilter.onBody, hb]
  have hwu : s.onWindowUpdate 0 amount
      = (if s.sendsBlocked = true ∧ s.sendWindow.getNonNegativeSize ≠ 0 then
           ({ s with error := true, sendsBlocked := false },
            [Event.onError 0 getException false,
             Event.onConnectionSendWindowOpen])
         else ({ s with error := true },
               [Event.onError 0 getException false])) := by
    simp [FlowControlFilter.onWindowUpdate, hw]
  refine ⟨hob, ?_, ?_, ?_, ?_, ?_, ?_, rfl, rfl⟩
  · rw [hob]; simp [FlowControlFilter.isReusable]
  all_goals rw [hwu]
  all_goals by_cases hcond :
    s.sendsBlocked = true ∧ s.sendWindow.getNonNegativeSize ≠ 0
  all_goals simp [hcond, FlowControlFilter.isReusable]

/-- C1 witness: a drained receive window rejects a 1-byte body, and a
fresh send window cannot absorb a `2^31` grant. -/
theorem C1_peer_violation_witness :
    FlowControlFilter.drainedRecvState.recvWindow.reserve 1 = none ∧
    FlowControlFilter.drainedRecvState.sendWindow.free (2 ^ 31) = none ∧
    FlowControlFilter.drainedRecvState.onBody 7 1
      = ({ FlowControlFilter.drainedRecvState with error := true },
         [Event.onError 0 getException false]) ∧
    (FlowControlFilter.drainedRecvState.onWindowUpdate 0 (2 ^ 31)).1.error
      = true :=
  ⟨by decide, by decide,
   (C1_peer_violation FlowControlFilter.drainedRecvState 7 1 (2 ^ 31) true
     (by decide) (by decide)).1,
   (C1_peer_violation FlowControlFilter.drainedRecvState 7 1 (2 ^ 31) true
     (by decide) (by decide)).2.2.1⟩

/-! ## C4 -/

/-- C4: both local invariant violations abort fatally (the result is
`none`, modelling the fatal `CHECK`) instead of returning a soft error: a
`generateBody` whose length cannot be reserved against the send window,
and any `generateWindowUpdate` on the connection-level stream id 0. -/
theorem C4_local_invariant_aborts (s : FlowControlFilter)
    (stream len d : Nat) (eom : Bool)
    (h : s.sendWindow.reserve len = none) :
    s.generateBody stream len eom = none ∧
    s.generateWindowUpdate 0 d = none := by
  constructor
  · simp [FlowControlFilter.generateBody, h]
  · simp [FlowControlFilter.generateWindowUpdate]

/-- C4 witness: a drained send window rejects a 1-byte body, so
`generateBody` aborts, and `generateWindowUpdate 0` always aborts. -/
theorem C4_local_invariant_aborts_witness :
    FlowControlFilter.drainedSendState.sendWindow.reserve 1 = none ∧
    FlowControlFilter.drainedSendState.generateBody 3 1 false = none ∧
    FlowControlFilter.drainedSendState.generateWindowUpdate 0 9 = none :=
  ⟨by decide,
   (C4_local_invariant_aborts FlowControlFilter.drainedSendState 3 1 9 false
     (by decide)).1,
   (C4_local_invariant_aborts FlowControlFilter.drainedSendState 3 1 9 false
     (by decide)).2⟩

/-! ## C6 -/

/-- C6: a connection-level `onWindowUpdate` (stream id 0) is consumed
entirely — no `onWindowUpdate` is ever forwarded to the downstream
callback — while a nonzero-stream `onWindowUpdate` is forwarded unchanged
(same stream id, same amount) and leaves the whole filter state, in
particular both windows, untouched. -/
theorem C6_window_update_routing (s : FlowControlFilter)
    (stream amount : Nat) :
    (∀ st a, Event.onWindowUpdateCb st a ∉ (s.onWindowUpdate 0 amount).2) ∧
    (stream ≠ 0 →
      s.onWindowUpdate stream amount
        = (s, [Event.onWindowUpdateCb stream amount])) := by
  constructor
  · intro st a
    rcases hf : s.sendWindow.free amount with _ | w
    · rw [onWindowUpdate_conn_free_none s amount hf]
      by_cases hcond :
          s.sendsBlocked = true ∧ s.sendWindow.getNonNegativeSize ≠ 0 <;>
        simp [hcond]
    · rw [onWindowUpdate_conn_free_some s amount w hf]
      by_cases hcond : s.sendsBlocked = true ∧ w.getNonNegativeSize ≠ 0 <;>
        simp [hcond]
  · intro hs
    simp [FlowControlFilter.onWindowUpdate, hs]

/-- C6 witness: a stream-5 update is forwarded unchanged with the state
untouched; the conclusion for stream 0 is instantiated as well. -/
theorem C6_window_update_routing_witness :
    ((5 : Nat) ≠ 0) ∧
    FlowControlFilter.initState.onWindowUpdate 5 7
      = (FlowControlFilter.initState, [Event.onWindowUpdateCb 5 7]) ∧
    Event.onWindowUpdateCb 5 7 ∉
      (FlowControlFilter.initState.onWindowUpdate 0 7).2 :=
  ⟨by decide,
   (C6_window_update_routing FlowControlFilter.initState 5 7).2 (by decide),
   (C6_window_update_routing FlowControlFilter.initState 5 7).1 5 7⟩

/-! ## C9 -/

/-- C9: constructing with `recvCapacity` below the protocol default
changes nothing and emits nothing; constructing above the default sets the
receive window capacity to `recvCapacity` and emits exactly one
window-update on stream 0 for `recvCapacity - kInitialWindow`. -/
theorem C9_constructor (c : Nat) :
    (c < kInitialWindow →
      FlowControlFilter.construct c = some (FlowControlFilter.initState, [])) ∧
    (kInitialWindow < c →
      FlowControlFilter.construct c =
        some ({ FlowControlFilter.initState with
                  recvWindow := { capacity := c, available := (c : Int) } },
              [Event.genWindowUpdate 0 (c - kInitialWindow)])) := by
  constructor
  · intro h
    simp [FlowControlFilter.construct, h]
  · intro h
    have h0 : (65536 : Nat) < c := h
    have h1 : ¬ c < kInitialWindow := by
      simp only [kInitialWindow]; omega
    have hnc : ¬ c < FlowControlFilter.initState.recvWindow.capacity := by
      simp only [FlowControlFilter.initState, kInitialWindow]; omega
    have h2 : FlowControlFilter.initState.recvWindow.setCapacity c
        = some { capacity := c, available := (c : Int) } := by
      have hrw : FlowControlFilter.initState.recvWindow = Window.mk 65536 65536 :=
        rfl
      rw [hrw]
      simp only [Window.setCapacity]
      rw [if_neg (by simp; omega)]
      simp
    simp [FlowControlFilter.construct, h1, h, h2]

/-- C9 witness: capacity 100 is ignored; capacity 70000 grows the window
and emits one update for 4464. -/
theorem C9_constructor_witness :
    ((100 : Nat) < kInitialWindow) ∧
    FlowControlFilter.construct 100 = some (FlowControlFilter.initState, []) ∧
    (kInitialWindow < (70000 : Nat)) ∧
    FlowControlFilter.construct 70000 =
      some ({ FlowControlFilter.initState with
                recvWindow := { capacity := 70000, available := (70000 : Int) } },
            [Event.genWindowUpdate 0 4464]) :=
  ⟨by decide, (C9_constructor 100).1 (by decide), by decide,
   ((C9_constructor 70000).2 (by decide)).trans (by decide)⟩

/-! ## C7 -/

/-- C7 counterexample: the claim that after any error no subsequent
ingress event is forwarded is false.  A connection-level window update of
`2^31` overflows send credit and sets the errored state, yet a following
`onBody` of 10 bytes passes its own receive-window check and is still
forwarded to the data-delivery callback. -/
theorem C7_forwarding_after_error_cex :
    (FlowControlFilter.initState.onWindowUpdate 0 (2 ^ 31)).1.error = true ∧
    Event.onBodyCb 5 10 ∈
      ((FlowControlFilter.initState.onWindowUpdate 0 (2 ^ 31)).1.onBody 5 10).2 := by
  decide

/-- C7 (amended): once the errored flag is set, `isReusable` reports false
without consulting the wrapped codec, and no operation of the filter ever
clears the flag; forwarding of later ingress events, however, is not gated
on the flag — only each event with its own flow-control violation is
suppressed. -/
theorem C7_errored_is_permanent (s : FlowControlFilter) (codecReusable : Bool)
    (h : s.error = true) :
    s.isReusable codecReusable = false ∧
    (∀ st l, (s.onBody st l).1.error = true) ∧
    (∀ st a, (s.onWindowUpdate st a).1.error = true) ∧
    (∀ c, (s.setReceiveWindowSize c).1.error = true) ∧
    (∀ d r, s.ingressBytesProcessed d = some r → r.1.error = true) ∧
    (∀ st l e r, s.generateBody st l e = some r → r.1.error = true) ∧
    (∀ st d r, s.generateWindowUpdate st d = some r → r.1.error = true) := by
  refine ⟨by simp [FlowControlFilter.isReusable, h], ?_, ?_, ?_, ?_, ?_, ?_⟩
  · intro st l
    rcases hr : s.recvWindow.reserve l with _ | w <;>
      simp [FlowControlFilter.onBody, hr, h]
  · intro st a
    by_cases hst : st = 0
    · subst hst
      rcases hf : s.sendWindow.free a with _ | w
      · rw [onWindowUpdate_conn_free_none s a hf]
        by_cases hcond :
            s.sendsBlocked = true ∧ s.sendWindow.getNonNegativeSize ≠ 0 <;>
          simp [hcond, h]
      · rw [onWindowUpdate_conn_free_some s a w hf]
        by_cases hcond : s.sendsBlocked = true ∧ w.getNonNegativeSize ≠ 0 <;>
          simp [hcond, h]
    · simp [FlowControlFilter.onWindowUpdate, hst, h]
  · intro c
    simp only [FlowControlFilter.setReceiveWindowSize]
    split
    · exact h
    · split
      · exact h
      · split
        · exact h
        · split <;> simp [h]
  · intro d r hr
    simp only [FlowControlFilter.ingressBytesProcessed] at hr
    split at hr
    · split at hr
      · exact absurd hr (by simp)
      · rw [← Option.some.inj hr]; exact h
    · rw [← Option.some.inj hr]; exact h
  · intro st l e r hr
    simp only [FlowControlFilter.generateBody] at hr
    split at hr
    · exact absurd hr (by simp)
    · rw [← Option.some.inj hr]
      split <;> exact h
  · intro st d r hr
    simp only [FlowControlFilter.generateWindowUpdate] at hr
    split at hr
    · exact absurd hr (by simp)
    · rw [← Option.some.inj hr]; exact h

/-- Witness for the amended C7: a filter that just recorded an overflow
error is not reusable even when the wrapped codec says it is, and a
subsequent `onBody` keeps the flag set. -/
theorem C7_errored_is_permanent_witness :
    (FlowControlFilter.initState.onWindowUpdate 0 (2 ^ 31)).1.error = true ∧
    (FlowControlFilter.initState.onWindowUpdate 0 (2 ^ 31)).1.isReusable true
      = false ∧
    ((FlowControlFilter.initState.onWindowUpdate 0 (2 ^ 31)).1.onBody 5 10).1.error
      = true :=
  ⟨by decide,
   (C7_errored_is_permanent
     (FlowControlFilter.initState.onWindowUpdate 0 (2 ^ 31)).1 true (by decide)).1,
   (C7_errored_is_permanent
     (FlowControlFilter.initState.onWindowUpdate 0 (2 ^ 31)).1 true
     (by decide)).2.1 5 10⟩

/-! ## C8 -/

/-- C8: a connection-level `onWindowUpdate` whose grant is applied
successfully increases `getAvailableSend` by exactly the granted amount
(given the send-window credit is non-negative, as every reachable filter
state has it). -/
theorem C8_send_credit_increases (s : FlowControlFilter) (amount : Nat)
    (w : Window)
    (h0 : 0 ≤ s.sendWindow.available)
    (hf : s.sendWindow.free amount = some w) :
    (s.onWindowUpdate 0 amount).1.getAvailableSend
      = s.getAvailableSend + amount := by
  have hw : w = { s.sendWindow with
                    available := s.sendWindow.available + amount } := by
    simp only [Window.free] at hf
    split at hf
    · exact absurd hf (by simp)
    · exact (Option.some.inj hf).symm
  subst hw
  rw [onWindowUpdate_conn_free_some s amount _ hf]
  by_cases hcond : s.sendsBlocked = true ∧
      ({ s.sendWindow with
           available := s.sendWindow.available + amount } : Window).getNonNegativeSize
        ≠ 0
  · rw [if_pos hcond]
    simp only [FlowControlFilter.getAvailableSend, Window.getNonNegativeSize]
    omega
  · rw [if_neg hcond]
    simp only [FlowControlFilter.getAvailableSend, Window.getNonNegativeSize]
    omega

/-- C8 witness: granting 100 to a drained send window raises
`getAvailableSend` from 0 to 100. -/
theorem C8_send_credit_increases_witness :
    (FlowControlFilter.drainedSendState.onWindowUpdate 0 100).1.getAvailableSend
      = FlowControlFilter.drainedSendState.getAvailableSend + 100 :=
  C8_send_credit_increases FlowControlFilter.drainedSendState 100
    (Window.mk 65536 100) (by decide) (by decide)

/-! ## C3 -/

/-- C3: `ingressBytesProcessed` adds the delta into the accumulator; when
the accumulated total is positive and exceeds half the receive-window
capacity it frees that total from the receive window, emits one
window-update for exactly that amount, resets the accumulator and reports
a flush; otherwise it emits nothing and reports no flush, and in
particular any sequence of deltas whose running total stays within half
the capacity emits nothing. -/
theorem C3_ingress_bytes_processed (s : FlowControlFilter) (delta : Nat)
    (ds : List Nat) :
    (∀ w, 0 < wrap32 (s.toAck + (delta : Int)) →
      s.recvWindow.getCapacity / 2 < (wrap32 (s.toAck + (delta : Int))).toNat →
      s.recvWindow.free (wrap32 (s.toAck + (delta : Int))).toNat = some w →
      s.ingressBytesProcessed delta
        = some ({ s with recvWindow := w, toAck := 0 },
                [Event.genWindowUpdate 0 (wrap32 (s.toAck + (delta : Int))).toNat],
                true)) ∧
    (¬ (0 < wrap32 (s.toAck + (delta : Int)) ∧
        s.recvWindow.getCapacity / 2 < (wrap32 (s.toAck + (delta : Int))).toNat) →
      s.ingressBytesProcessed delta
        = some ({ s with toAck := wrap32 (s.toAck + (delta : Int)) }, [], false)) ∧
    (∀ s' evs b, s.ingressBytesProcessed delta = some (s', evs, b) →
      ((b = true ↔
        (0 < wrap32 (s.toAck + (delta : Int)) ∧
         s.recvWindow.getCapacity / 2 < (wrap32 (s.toAck + (delta : Int))).toNat)) ∧
       (evs ≠ [] ↔ b = true))) ∧
    (0 ≤ s.toAck →
     s.toAck + (ds.sum : Int) ≤ ((s.recvWindow.getCapacity / 2 : Nat) : Int) →
     s.recvWindow.getCapacity < 2 ^ 32 →
     s.runIngress ds = some ({ s with toAck := s.toAck + (ds.sum : Int) }, [])) := by
  refine ⟨?_, ?_, ?_, ?_⟩
  · intro w hpos hcap hfree
    simp only [FlowControlFilter.ingressBytesProcessed]
    rw [if_pos ⟨hpos, hcap⟩, hfree]
  · intro hneg
    simp only [FlowControlFilter.ingressBytesProcessed]
    rw [if_neg hneg]
  · intro s' evs b heq
    simp only [FlowControlFilter.ingressBytesProcessed] at heq
    split at heq
    · split at heq
      · exact absurd heq (by simp)
      · simp only [Option.some.injEq, Prod.mk.injEq] at heq
        obtain ⟨h1, h2, h3⟩ := heq
        subst h2
        subst h3
        exact ⟨by simp_all, by simp⟩
    · simp only [Option.some.injEq, Prod.mk.injEq] at heq
      obtain ⟨h1, h2, h3⟩ := heq
      subst h2
      subst h3
      exact ⟨by simp_all, by simp⟩
  · induction ds generalizing s with
    | nil =>
      intro h0 hsum hcap
      simp [FlowControlFilter.runIngress]
    | cons d ds ih =>
      intro h0 hsum hcap
      rw [List.sum_cons, Nat.cast_add] at hsum
      have hhalf : (s.recvWindow.getCapacity / 2 : Nat) < 2 ^ 31 := by omega
      have ha : wrap32 (s.toAck + (d : Int)) = s.toAck + (d : Int) :=
        wrap32_eq_self _ (by omega) (by omega)
      have hcond : ¬ (0 < wrap32 (s.toAck + (d : Int)) ∧
          s.recvWindow.getCapacity / 2 < (wrap32 (s.toAck + (d : Int))).toNat) := by
        rw [ha]
        omega
      have hstep : s.ingressBytesProcessed d
          = some ({ s with toAck := wrap32 (s.toAck + (d : Int)) }, [], false) := by
        simp only [FlowControlFilter.ingressBytesProcessed]
        rw [if_neg hcond]
      have h0' : 0 ≤ ({ s with toAck := wrap32 (s.toAck + (d : Int)) } :
          FlowControlFilter).toAck := by
        show 0 ≤ wrap32 (s.toAck + (d : Int))
        rw [ha]; omega
      have hsum' : ({ s with toAck := wrap32 (s.toAck + (d : Int)) } :
            FlowControlFilter).toAck + (ds.sum : Int)
          ≤ ((({ s with toAck := wrap32 (s.toAck + (d : Int)) } :
              FlowControlFilter).recvWindow.getCapacity / 2 : Nat) : Int) := by
        show wrap32 (s.toAck + (d : Int)) + (ds.sum : Int)
          ≤ ((s.recvWindow.getCapacity / 2 : Nat) : Int)
        rw [ha]; omega
      have hcap' : ({ s with toAck := wrap32 (s.toAck + (d : Int)) } :
          FlowControlFilter).recvWindow.getCapacity < 2 ^ 32 := hcap
      have hrec := ih _ h0' hsum' hcap'
      have htot : wrap32 (s.toAck + (d : Int)) + (ds.sum : Int)
          = s.toAck + (((d :: ds).sum : Nat) : Int) := by
        rw [ha, List.sum_cons, Nat.cast_add]
        ring
      simp only [FlowControlFilter.runIngress, hstep, hrec, List.nil_append,
        htot]

/-- C3 witness: a single 40000-byte report on a fresh 65536-capacity
window flushes (40000 > 32768) with one update for exactly 40000; a
100-byte report does not flush; and 30000 + 2000 = 32000 ≤ 32768 reported
in two calls emits nothing at all. -/
theorem C3_ingress_bytes_processed_witness :
    FlowControlFilter.initState.ingressBytesProcessed 40000
      = some ({ FlowControlFilter.initState with
                  recvWindow := Window.mk 65536 105536, toAck := 0 },
              [Event.genWindowUpdate 0 40000], true) ∧
    FlowControlFilter.initState.ingressBytesProcessed 100
      = some ({ FlowControlFilter.initState with toAck := 100 }, [], false) ∧
    FlowControlFilter.initState.runIngress [30000, 2000]
      = some ({ FlowControlFilter.initState with toAck := 32000 }, []) :=
  ⟨((C3_ingress_bytes_processed FlowControlFilter.initState 40000 []).1
      (Window.mk 65536 105536) (by decide) (by decide) (by decide)).trans
    (by decide),
   ((C3_ingress_bytes_processed FlowControlFilter.initState 100 []).2.1
      (by decide)).trans (by decide),
   ((C3_ingress_bytes_processed FlowControlFilter.initState 0
      [30000, 2000]).2.2.2 (by decide) (by decide) (by decide)).trans
    (by decide)⟩

/-! ## C10 -/

/-- C10: when `setReceiveWindowSize` grows the capacity while the
`toAck` accumulator is positive, the emitted window-update covers only
the capacity delta, the whole accumulator is reset to zero, and the
receive window gains only the capacity delta — it is never freed for the
previously accumulated bytes, whose receive credit is therefore dropped
and never advertised to the peer. -/
theorem C10_resize_drops_pending_ack (s : FlowControlFilter)
    (capacity : Nat)
    (hk : kInitialWindow ≤ capacity)
    (hc32 : capacity < 2 ^ 32)
    (hgrow : s.recvWindow.capacity < capacity)
    (hd31 : capacity - s.recvWindow.capacity < 2 ^ 31)
    (hpos : 0 < s.toAck)
    (hnw : s.toAck + ((capacity - s.recvWindow.capacity : Nat) : Int) < 2 ^ 31) :
    s.setReceiveWindowSize capacity
      = ({ s with
             recvWindow :=
               { capacity := capacity
                 available := s.recvWindow.available +
                   ((capacity : Int) - (s.recvWindow.capacity : Int)) }
             toAck := 0 },
         [Event.genWindowUpdate 0 (capacity - s.recvWindow.capacity)]) := by
  have h1 : ¬ capacity < kInitialWindow := by omega
  have hsub : uint32Sub capacity s.recvWindow.getCapacity
      = capacity - s.recvWindow.capacity := by
    simp only [uint32Sub, Window.getCapacity]
    omega
  have hdelta : toInt32 (capacity - s.recvWindow.capacity)
      = ((capacity - s.recvWindow.capacity : Nat) : Int) :=
    wrap32_eq_self _ (by omega) (by omega)
  have hnn : ¬ (((capacity - s.recvWindow.capacity : Nat) : Int) < 0) := by
    omega
  have hsc : s.recvWindow.setCapacity capacity
      = some { capacity := capacity
               available := s.recvWindow.available +
                 ((capacity : Int) - (s.recvWindow.capacity : Int)) } := by
    simp only [Window.setCapacity]
    rw [if_neg (by omega)]
  have ha : wrap32 (s.toAck + ((capacity - s.recvWindow.capacity : Nat) : Int))
      = s.toAck + ((capacity - s.recvWindow.capacity : Nat) : Int) :=
    wrap32_eq_self _ (by omega) (by omega)
  have hapos :
      0 < wrap32 (s.toAck + ((capacity - s.recvWindow.capacity : Nat) : Int)) := by
    rw [ha]
    omega
  simp only [FlowControlFilter.setReceiveWindowSize, hsub, hdelta, hsc, ha]
  rw [if_neg h1, if_neg hnn, if_pos (ha ▸ hapos)]
  simp

/-- C10 witness: growing a default window to 70000 with 500 pending bytes
emits an update for 4464 only and zeroes the accumulator. -/
theorem C10_resize_drops_pending_ack_witness :
    FlowControlFilter.pendingAckState.setReceiveWindowSize 70000
      = ({ FlowControlFilter.pendingAckState with
             recvWindow := Window.mk 70000 69500
             toAck := 0 },
         [Event.genWindowUpdate 0 4464]) :=
  (C10_resize_drops_pending_ack FlowControlFilter.pendingAckState 70000
    (by decide) (by decide) (by decide) (by decide) (by decide)
    (by decide)).trans (by decide)

/-! ## C5 -/

/-- The send-window invariant holds in the constructor state and is
preserved by every filter operation, so it holds in every reachable
state. -/
theorem sendInv_preserved (s : FlowControlFilter) (hinv : s.SendInv) :
    FlowControlFilter.initState.SendInv ∧
    (∀ st l, ((s.onBody st l).1).SendInv) ∧
    (∀ st a, ((s.onWindowUpdate st a).1).SendInv) ∧
    (∀ c, ((s.setReceiveWindowSize c).1).SendInv) ∧
    (∀ d r, s.ingressBytesProcessed d = some r → r.1.SendInv) ∧
    (∀ st l e r, s.generateBody st l e = some r → r.1.SendInv) ∧
    (∀ st d r, s.generateWindowUpdate st d = some r → r.1.SendInv) ∧
    (∀ c r, FlowControlFilter.construct c = some r → r.1.SendInv) := by
  obtain ⟨hnn, hblk⟩ := hinv
  refine ⟨⟨by decide, by decide⟩, ?_, ?_, ?_, ?_, ?_, ?_, ?_⟩
  · intro st l
    rcases hr : s.recvWindow.reserve l with _ | w <;>
      simp only [FlowControlFilter.onBody, hr] <;> exact ⟨hnn, hblk⟩
  · intro st a
    by_cases hst : st = 0
    · subst hst
      rcases hf : s.sendWindow.free a with _ | w
      · rw [onWindowUpdate_conn_free_none s a hf]
        by_cases hcond :
            s.sendsBlocked = true ∧ s.sendWindow.getNonNegativeSize ≠ 0
        · rw [if_pos hcond]
          exact ⟨hnn, by simp⟩
        · rw [if_neg hcond]
          exact ⟨hnn, hblk⟩
      · have hw : w = { s.sendWindow with
            available := s.sendWindow.available + a } := by
          simp only [Window.free] at hf
          split at hf
          · exact absurd hf (by simp)
          · exact (Option.some.inj hf).symm
        rw [onWindowUpdate_conn_free_some s a w hf]
        by_cases hcond : s.sendsBlocked = true ∧ w.getNonNegativeSize ≠ 0
        · rw [if_pos hcond]
          refine ⟨?_, by simp⟩
          show 0 ≤ w.available
          rw [hw]
          show 0 ≤ s.sendWindow.available + (a : Int)
          omega
        · rw [if_neg hcond]
          refine ⟨?_, ?_⟩
          · show 0 ≤ w.available
            rw [hw]
            show 0 ≤ s.sendWindow.available + (a : Int)
            omega
          · intro hb
            show w.available = 0
            have h0 : s.sendWindow.available = 0 := hblk hb
            have hnz : ¬ w.getNonNegativeSize ≠ 0 := fun hn => hcond ⟨hb, hn⟩
            have hwa : w.available = s.sendWindow.available + (a : Int) := by
              rw [hw]
            simp only [Window.getNonNegativeSize] at hnz
            omega
    · simp only [FlowControlFilter.onWindowUpdate, hst, if_neg hst]
      exact ⟨hnn, hblk⟩
  · intro c
    simp only [FlowControlFilter.setReceiveWindowSize]
    split
    · exact ⟨hnn, hblk⟩
    · split
      · exact ⟨hnn, hblk⟩
      · split
        · exact ⟨hnn, hblk⟩
        · split <;> exact ⟨hnn, hblk⟩
  · intro d r hr
    simp only [FlowControlFilter.ingressBytesProcessed] at hr
    split at hr
    · split at hr
      · exact absurd hr (by simp)
      · rw [← Option.some.inj hr]
        exact ⟨hnn, hblk⟩
    · rw [← Option.some.inj hr]
      exact ⟨hnn, hblk⟩
  · intro st l e r hr
    simp only [FlowControlFilter.generateBody] at hr
    rcases hres : s.sendWindow.reserve l with _ | w
    · rw [hres] at hr
      exact absurd hr (by simp)
    · rw [hres] at hr
      have hw : w = { s.sendWindow with
          available := s.sendWindow.available - l } ∧
          (l : Int) ≤ s.sendWindow.available := by
        simp only [Window.reserve] at hres
        split at hres
        · exact ⟨(Option.some.inj hres).symm, by assumption⟩
        · exact absurd hres (by simp)
      rw [← Option.some.inj hr]
      by_cases hz : w.getNonNegativeSize = 0
      · simp only [hz, if_pos rfl]
        refine ⟨?_, ?_⟩
        · show 0 ≤ w.available
          rw [hw.1]
          show 0 ≤ s.sendWindow.available - (l : Int)
          have := hw.2
          omega
        · intro _
          show w.available = 0
          have h1 : w.available.toNat = 0 := hz
          have h2 : 0 ≤ w.available := by
            rw [hw.1]
            show 0 ≤ s.sendWindow.available - (l : Int)
            have := hw.2
            omega
          omega
      · simp only [if_neg hz]
        refine ⟨?_, ?_⟩
        · show 0 ≤ w.available
          rw [hw.1]
          show 0 ≤ s.sendWindow.available - (l : Int)
          have := hw.2
          omega
        · intro hb
          show w.available = 0
          have h0 : s.sendWindow.available = 0 := hblk hb
          have h2 := hw.2
          have hwa : w.available = s.sendWindow.available - (l : Int) := by
            rw [hw.1]
          omega
  · intro st d r hr
    simp only [FlowControlFilter.generateWindowUpdate] at hr
    split at hr
    · exact absurd hr (by simp)
    · rw [← Option.some.inj hr]
      exact ⟨hnn, hblk⟩
  · intro c r hr
    simp only [FlowControlFilter.construct] at hr
    split at hr
    · rw [← Option.some.inj hr]
      exact ⟨by decide, by decide⟩
    · split at hr
      · split at hr
        · exact absurd hr (by simp)
        · rw [← Option.some.inj hr]
          constructor
          · show (0 : Int) ≤ FlowControlFilter.initState.sendWindow.available
            decide
          · intro hb
            have hb' : FlowControlFilter.initState.sendsBlocked = true := hb
            exact absurd hb' (by decide)
      · rw [← Option.some.inj hr]
        exact ⟨by decide, by decide⟩

/-- C5: in every state satisfying the reachable-state send invariant, the
`onConnectionSendWindowOpen` notification fires exactly when a
connection-level `onWindowUpdate` successfully frees credit into a
blocked send window leaving it non-empty; when it fires it is the only
event of the call (in particular the `free` succeeded) and the blocked
flag is cleared, so it cannot fire again before a new blocked episode; and
no other filter operation ever fires it (in particular a failed `free`
never does). -/
theorem C5_send_window_open_notification (s : FlowControlFilter)
    (stream amount : Nat) (hinv : s.SendInv) :
    (Event.onConnectionSendWindowOpen ∈ (s.onWindowUpdate stream amount).2 ↔
      stream = 0 ∧ s.sendsBlocked = true ∧
        ∃ w, s.sendWindow.free amount = some w ∧ w.getNonNegativeSize ≠ 0) ∧
    (Event.onConnectionSendWindowOpen ∈ (s.onWindowUpdate stream amount).2 →
      (s.onWindowUpdate stream amount).2 = [Event.onConnectionSendWindowOpen] ∧
      (s.onWindowUpdate stream amount).1.sendsBlocked = false) ∧
    (∀ st l, Event.onConnectionSendWindowOpen ∉ (s.onBody st l).2) ∧
    (∀ c, Event.onConnectionSendWindowOpen ∉ (s.setReceiveWindowSize c).2) ∧
    (∀ d r, s.ingressBytesProcessed d = some r →
      Event.onConnectionSendWindowOpen ∉ r.2.1) ∧
    (∀ st l e r, s.generateBody st l e = some r →
      Event.onConnectionSendWindowOpen ∉ r.2) ∧
    (∀ st d r, s.generateWindowUpdate st d = some r →
      Event.onConnectionSendWindowOpen ∉ r.2) ∧
    (∀ c r, FlowControlFilter.construct c = some r →
      Event.onConnectionSendWindowOpen ∉ r.2) := by
  have himp : ¬ (s.sendsBlocked = true ∧ s.sendWindow.getNonNegativeSize ≠ 0) := by
    rintro ⟨hb, hnz⟩
    exact hnz (by simp [Window.getNonNegativeSize, hinv.2 hb])
  refine ⟨?_, ?_, ?_, ?_, ?_, ?_, ?_, ?_⟩
  · by_cases hst : stream = 0
    · subst hst
      rcases hf : s.sendWindow.free amount with _ | w
      · rw [onWindowUpdate_conn_free_none s amount hf, if_neg himp]
        simp [hf]
      · rw [onWindowUpdate_conn_free_some s amount w hf]
        by_cases hcond : s.sendsBlocked = true ∧ w.getNonNegativeSize ≠ 0
        · rw [if_pos hcond]
          simpa [hf, hcond.1] using hcond.2
        · rw [if_neg hcond]
          simpa [hf] using hcond
    · simp [FlowControlFilter.onWindowUpdate, hst]
  · intro hmem
    by_cases hst : stream = 0
    · subst hst
      rcases hf : s.sendWindow.free amount with _ | w
      · rw [onWindowUpdate_conn_free_none s amount hf, if_neg himp] at hmem
        simp at hmem
      · rw [onWindowUpdate_conn_free_some s amount w hf] at hmem ⊢
        by_cases hcond : s.sendsBlocked = true ∧ w.getNonNegativeSize ≠ 0
        · rw [if_pos hcond] at hmem ⊢
          simp
        · rw [if_neg hcond] at hmem
          simp at hmem
    · rw [show s.onWindowUpdate stream amount
          = (s, [Event.onWindowUpdateCb stream amount]) from by
            simp [FlowControlFilter.onWindowUpdate, hst]] at hmem
      simp at hmem
  · intro st l
    rcases hr : s.recvWindow.reserve l with _ | w <;>
      simp [FlowControlFilter.onBody, hr]
  · intro c
    simp only [FlowControlFilter.setReceiveWindowSize]
    split
    · simp
    · split
      · simp
      · split
        · simp
        · split <;> simp
  · intro d r hr
    simp only [FlowControlFilter.ingressBytesProcessed] at hr
    split at hr
    · split at hr
      · exact absurd hr (by simp)
      · rw [← Option.some.inj hr]
        simp
    · rw [← Option.some.inj hr]
      simp
  · intro st l e r hr
    simp only [FlowControlFilter.generateBody] at hr
    split at hr
    · exact absurd hr (by simp)
    · rw [← Option.some.inj hr]
      simp
  · intro st d r hr
    simp only [FlowControlFilter.generateWindowUpdate] at hr
    split at hr
    · exact absurd hr (by simp)
    · rw [← Option.some.inj hr]
      simp
  · intro c r hr
    simp only [FlowControlFilter.construct] at hr
    split at hr
    · rw [← Option.some.inj hr]
      simp
    · split at hr
      · split at hr
        · exact absurd hr (by simp)
        · rw [← Option.some.inj hr]
          simp
      · rw [← Option.some.inj hr]
        simp

/-- C5 witness: a blocked filter with a drained send window receiving a
100-byte connection-level grant fires the notification as the sole event
of the call and clears the blocked flag. -/
theorem C5_send_window_open_notification_witness :
    FlowControlFilter.blockedState.SendInv ∧
    (FlowControlFilter.blockedState.onWindowUpdate 0 100).2
      = [Event.onConnectionSendWindowOpen] ∧
    (FlowControlFilter.blockedState.onWindowUpdate 0 100).1.sendsBlocked
      = false := by
  have hinv : FlowControlFilter.blockedState.SendInv := ⟨by decide, fun _ => by decide⟩
  have hmem : Event.onConnectionSendWindowOpen ∈
      (FlowControlFilter.blockedState.onWindowUpdate 0 100).2 :=
    (C5_send_window_open_notification FlowControlFilter.blockedState 0 100
      hinv).1.mpr ⟨rfl, by decide, Window.mk 65536 100, by decide, by decide⟩
  exact ⟨hinv,
    ((C5_send_window_open_notification FlowControlFilter.blockedState 0 100
      hinv).2.1 hmem).1,
    ((C5_send_window_open_notification FlowControlFilter.blockedState 0 100
      hinv).2.1 hmem).2⟩

end Proxygen
